import Mathlib

/-!
Shallow embedding of the progression engine of the Virtual-Lab repository:
the badge evaluation routine `checkAndAwardBadges` (src/lib/badgeUtils.ts),
the level computation from `submitResult` (src/pages/OhmsLawExperiment.tsx),
and the streak computation `calculateStreak` (src/pages/Dashboard.tsx).

Strings that undergo normalization are modelled as `List Char`; identifiers
that are only compared for equality stay `String`.  JavaScript numbers that
only ever meet integer comparisons are modelled as `Int` (scores, thresholds)
or `Nat` (counts).  The asynchronous store fetches are modelled as `Except`
values and the per-badge insert as a boolean oracle on badge ids.
-/

namespace VLab

/-- ASCII apostrophe, written by code point so that concrete experiment-name
fixtures can contain it. -/
def apos : Char := Char.ofNat 39

/-- Characters removed by the regex `[..]` in `normalizeExperimentName`
(apostrophes and double quotes). -/
def isQuoteChar (c : Char) : Bool := c = apos || c = '"'

/-- Whitespace in the sense of the regex `\s` (the characters that occur in
experiment names). -/
def isWS (c : Char) : Bool := c = ' ' || c = '\t' || c = '\n' || c = '\r'

/-- Replace every maximal run of whitespace by a single space, as the regex
replace of `\s+` with a single space does. -/
def collapseWS (s : List Char) : List Char :=
  s.foldr (fun c acc =>
    if isWS c then
      match acc with
      | ' ' :: _ => acc
      | _ => ' ' :: acc
    else c :: acc) []

/-- Remove leading and trailing whitespace, as `String.prototype.trim`. -/
def trimWS (s : List Char) : List Char :=
  ((s.dropWhile isWS).reverse.dropWhile isWS).reverse

/-- Embeds `normalizeExperimentName` from src/lib/badgeUtils.ts lines 96-101:
lowercase, remove apostrophes and quotes, collapse whitespace, trim. -/
def normalizeExperimentName (s : List Char) : List Char :=
  trimWS (collapseWS ((s.map Char.toLower).filter (fun c => !isQuoteChar c)))

/-- The type-matching test used by every type-based criterion site
(badgeUtils.ts lines 128-131, 163-166, 182-185): normalize both strings and
test substring containment, as `expName.includes(expTypeNormalized)`. -/
def matchesType (expType name : List Char) : Bool :=
  decide (normalizeExperimentName expType <:+: normalizeExperimentName name)

/-- The nested `experiments (name, subject)` record selected with each run. -/
structure ExperimentInfo where
  name : List Char
  subject : List Char
deriving DecidableEq

/-- Embeds the `ExperimentRun` interface of badgeUtils.ts. -/
structure ExperimentRun where
  id : String
  experiment_id : String
  status : String
  score : Option Int
  accuracy : Option Int
  experiments : Option ExperimentInfo
deriving DecidableEq

/-- Embeds the `BadgeCriteria` interface of badgeUtils.ts: every field is
optional, mirroring the loosely-typed JSON criteria blob. -/
structure BadgeCriteria where
  experiments_completed : Option Nat := none
  experiment_type : Option (List Char) := none
  completed : Option Bool := none
  accuracy_threshold : Option Int := none
  xp_threshold : Option Int := none
  subject : Option (List Char) := none
  min_accuracy : Option Int := none
deriving DecidableEq

/-- Embeds the `Badge` interface of badgeUtils.ts. -/
structure Badge where
  id : String
  name : String
  description : String := ""
  icon : String := ""
  tier : String := ""
  criteria : BadgeCriteria
deriving DecidableEq

/-- JavaScript truthiness of an optional string (absent or empty is falsy). -/
def truthyStr : Option (List Char) → Bool
  | none => false
  | some s => !s.isEmpty

/-- JavaScript truthiness of an optional number (absent or zero is falsy). -/
def truthyInt : Option Int → Bool
  | none => false
  | some v => decide (v ≠ 0)

/-- JavaScript truthiness of an optional count (absent or zero is falsy). -/
def truthyNat : Option Nat → Bool
  | none => false
  | some v => decide (v ≠ 0)

/-- The expression `(r.experiments as any)?.name || ''`. -/
def expName (r : ExperimentRun) : List Char :=
  match r.experiments with
  | some e => e.name
  | none => []

/-- The expression `(r.experiments as any)?.subject || ''`. -/
def expSubject (r : ExperimentRun) : List Char :=
  match r.experiments with
  | some e => e.subject
  | none => []

/-- The expression `r.score || 0` (absent score counts as zero). -/
def scoreOr0 (r : ExperimentRun) : Int := r.score.getD 0

/-- Subject comparison with the `|| ''` default, as on badgeUtils.ts line 148:
`((r.experiments as any)?.subject || '').toLowerCase() === c.subject?.toLowerCase()`. -/
def subjMatchD (r : ExperimentRun) (s : List Char) : Bool :=
  decide ((expSubject r).map Char.toLower = s.map Char.toLower)

/-- Subject comparison through optional chaining without a default, as on
badgeUtils.ts lines 213-217: an absent `experiments` record never matches. -/
def subjMatchQ (r : ExperimentRun) (s : List Char) : Bool :=
  match r.experiments with
  | none => false
  | some e => decide (e.subject.map Char.toLower = s.map Char.toLower)

/-- The guard `r.status === 'completed'` used to build `completedRuns`. -/
def isCompletedRun (r : ExperimentRun) : Bool := decide (r.status = "completed")

/-- The expression `typeRuns.length > 0 ? Math.max(...) : 0` of badgeUtils.ts
lines 187-189 and 195-197. -/
def maxScore (rs : List ExperimentRun) : Int :=
  match (rs.map scoreOr0).max? with
  | some v => v
  | none => 0

/-- Embeds the `experiments_completed` block, badgeUtils.ts lines 124-159. -/
def blockCount (c : BadgeCriteria) (completedRuns : List ExperimentRun) : Bool :=
  match c.experiments_completed with
  | none => false
  | some n =>
    if truthyStr c.experiment_type then
      let t := c.experiment_type.getD []
      let typeRuns := completedRuns.filter (fun r => matchesType t (expName r))
      match c.min_accuracy with
      | some m => decide ((typeRuns.filter (fun r => scoreOr0 r ≥ m)).length ≥ n)
      | none => decide (typeRuns.length ≥ n)
    else if truthyStr c.subject then
      decide ((completedRuns.filter (fun r => subjMatchD r (c.subject.getD []))).length ≥ n)
    else
      decide (completedRuns.length ≥ n)

/-- Embeds the type-completion block, badgeUtils.ts lines 161-175: it reads
the `completedExperiment` argument (the attempt that triggered evaluation). -/
def blockTypeCompletion (c : BadgeCriteria) (completedExperiment : Option ExperimentRun) : Bool :=
  match completedExperiment with
  | none => false
  | some run =>
    if truthyStr c.experiment_type then
      let t := c.experiment_type.getD []
      if matchesType t (expName run) && decide (run.status = "completed") then
        decide (c.completed = some true) ||
          (!truthyInt c.accuracy_threshold && !truthyNat c.experiments_completed)
      else false
    else false

/-- Embeds the `accuracy_threshold` block, badgeUtils.ts lines 177-202. -/
def blockAccuracy (c : BadgeCriteria) (completedRuns : List ExperimentRun) : Bool :=
  match c.accuracy_threshold with
  | none => false
  | some th =>
    if truthyStr c.experiment_type then
      let t := c.experiment_type.getD []
      decide (maxScore (completedRuns.filter (fun r => matchesType t (expName r))) ≥ th)
    else
      decide (maxScore completedRuns ≥ th)

/-- Embeds the `xp_threshold` block, badgeUtils.ts lines 204-209. -/
def blockXP (c : BadgeCriteria) (currentXP : Int) : Bool :=
  match c.xp_threshold with
  | none => false
  | some th => decide (currentXP ≥ th)

/-- Embeds the subject-mastery block, badgeUtils.ts lines 211-226. -/
def blockMastery (c : BadgeCriteria) (completedRuns allRuns : List ExperimentRun) : Bool :=
  if truthyStr c.subject && c.min_accuracy.isSome then
    let s := c.subject.getD []
    let m := c.min_accuracy.getD 0
    let subjectRuns := completedRuns.filter (fun r => subjMatchQ r s)
    let allSubjectRuns := allRuns.filter (fun r => subjMatchQ r s)
    decide (0 < allSubjectRuns.length) &&
      decide (subjectRuns.length = allSubjectRuns.length) &&
      subjectRuns.all (fun r => decide (scoreOr0 r ≥ m))
  else false

/-- The value of `shouldAward` after the body of the per-badge loop of
`checkAndAwardBadges` (badgeUtils.ts lines 110-226): each block is an
independent `if` that can only set the flag to true, so the final value is
the disjunction of the blocks in source order. -/
def shouldAward (c : BadgeCriteria) (completedRuns allRuns : List ExperimentRun)
    (currentXP : Int) (completedExperiment : Option ExperimentRun) : Bool :=
  blockCount c completedRuns ||
  blockTypeCompletion c completedExperiment ||
  blockAccuracy c completedRuns ||
  blockXP c currentXP ||
  blockMastery c completedRuns allRuns

/-- The per-badge loop of badgeUtils.ts lines 104-251: skip already-earned
badges, evaluate the criteria, attempt the insert, and collect the names of
the successfully inserted badges in loop order. -/
def awardLoop (earnedBadgeIds : List String) (completedRuns allRuns : List ExperimentRun)
    (currentXP : Int) (completedExperiment : Option ExperimentRun)
    (insertOk : String → Bool) : List Badge → List String
  | [] => []
  | badge :: rest =>
    let tail := awardLoop earnedBadgeIds completedRuns allRuns currentXP
      completedExperiment insertOk rest
    if badge.id ∈ earnedBadgeIds then tail
    else if shouldAward badge.criteria completedRuns allRuns currentXP completedExperiment then
      if insertOk badge.id then badge.name :: tail else tail
    else tail

/-- Embeds `checkAndAwardBadges` (badgeUtils.ts lines 38-257).  The three
store fetches are passed as `Except` values; any fetch error aborts the
evaluation with an empty result, mirroring the early returns on lines 51-54,
62-65 and 82-85.  The per-badge insert outcome is the oracle `insertOk`: a
failed insert skips that badge but the loop continues (lines 239-247). -/
def checkAndAwardBadges (fetchBadges : Except Unit (List Badge))
    (fetchUserBadgeIds : Except Unit (List String))
    (fetchRuns : Except Unit (List ExperimentRun))
    (currentXP : Int) (completedExperiment : Option ExperimentRun)
    (insertOk : String → Bool) : List String :=
  match fetchBadges with
  | .error _ => []
  | .ok allBadges =>
    match fetchUserBadgeIds with
    | .error _ => []
    | .ok userBadgeIds =>
      match fetchRuns with
      | .error _ => []
      | .ok allRuns =>
        let completedRuns := allRuns.filter isCompletedRun
        awardLoop userBadgeIds completedRuns allRuns currentXP completedExperiment
          insertOk allBadges

/-- Embeds the level computation from `submitResult`
(src/pages/OhmsLawExperiment.tsx line 482): `Math.floor(newXP / 500) + 1`. -/
def computeLevel (xpPoints : Nat) : Nat := xpPoints / 500 + 1

/-- One element of the attempt list consumed by `calculateStreak`
(src/pages/Dashboard.tsx): only the status and the completion day matter.
The local-calendar-date normalization of the timestamp is abstracted to an
integer day number. -/
structure AttemptRec where
  status : String
  completed_at : Option Int
deriving DecidableEq

/-- The set of distinct completion days built on Dashboard.tsx lines 131-143:
attempts with `status === 'completed'` and a present `completed_at`, reduced
to distinct days (the JavaScript `Set`). -/
def completedDatesOf (experiments : List AttemptRec) : List Int :=
  ((experiments.filter (fun e => decide (e.status = "completed") && e.completed_at.isSome)).filterMap
    (fun e => e.completed_at)).dedup

/-- The backward walk of Dashboard.tsx lines 176-191, counting consecutive
days present in the date set.  The while loop is embedded with fuel; the
caller passes the size of the date set, which suffices because the walk
visits distinct members of the set. -/
def countRun (dates : List Int) : Int → Nat → Nat
  | _, 0 => 0
  | d, fuel + 1 => if d ∈ dates then countRun dates (d - 1) fuel + 1 else 0

/-- Embeds `calculateStreak` (Dashboard.tsx lines 130-194): empty date set
gives 0; anchor at today if present, else at yesterday if present, else 0;
then walk backward counting consecutive present days. -/
def calculateStreak (experiments : List AttemptRec) (today : Int) : Nat :=
  let completedDates := completedDatesOf experiments
  if completedDates.isEmpty then 0
  else if today ∈ completedDates then
    countRun completedDates today completedDates.length
  else if (today - 1) ∈ completedDates then
    countRun completedDates (today - 1) completedDates.length
  else 0

/-! Helper lemmas about the backward walk of `calculateStreak`. -/

lemma countRun_le (S : List Int) : ∀ (fuel : Nat) (d : Int), countRun S d fuel ≤ fuel := by
  intro fuel
  induction fuel with
  | zero => intro d; simp [countRun]
  | succ n ih =>
    intro d
    unfold countRun
    split
    · exact Nat.succ_le_succ (ih (d - 1))
    · exact Nat.zero_le _

lemma countRun_mem (S : List Int) :
    ∀ (fuel : Nat) (d : Int) (i : Nat), i < countRun S d fuel → (d - i) ∈ S := by
  intro fuel
  induction fuel with
  | zero => intro d i h; simp [countRun] at h
  | succ n ih =>
    intro d i h
    unfold countRun at h
    by_cases hd : d ∈ S
    · rw [if_pos hd] at h
      cases i with
      | zero => simpa using hd
      | succ j =>
        have hj : j < countRun S (d - 1) n := by omega
        have := ih (d - 1) j hj
        have harith : d - ((j + 1 : Nat) : Int) = (d - 1) - (j : Int) := by push_cast; ring
        rwa [harith]
    · rw [if_neg hd] at h
      omega

lemma countRun_stop (S : List Int) :
    ∀ (fuel : Nat) (d : Int), countRun S d fuel < fuel →
      (d - (countRun S d fuel : Int)) ∉ S := by
  intro fuel
  induction fuel with
  | zero => intro d h; omega
  | succ n ih =>
    intro d h
    unfold countRun at h ⊢
    by_cases hd : d ∈ S
    · rw [if_pos hd] at h ⊢
      have hlt : countRun S (d - 1) n < n := by omega
      have := ih (d - 1) hlt
      have harith : d - ((countRun S (d - 1) n + 1 : Nat) : Int) =
          (d - 1) - (countRun S (d - 1) n : Int) := by push_cast; ring
      rwa [harith]
    · rw [if_neg hd] at h ⊢
      simpa using hd

lemma countRun_full_stop (S : List Int) (hnd : S.Nodup) (d : Int) :
    (d - (countRun S d S.length : Int)) ∉ S := by
  rcases Nat.lt_or_ge (countRun S d S.length) S.length with hlt | hge
  · exact countRun_stop S S.length d hlt
  · have heq : countRun S d S.length = S.length :=
      Nat.le_antisymm (countRun_le S S.length d) hge
    rw [heq]
    intro hmem
    have hall : ∀ i : Nat, i < S.length + 1 → (d - i) ∈ S := by
      intro i hi
      rcases Nat.lt_succ_iff_lt_or_eq.mp hi with hi' | hi'
      · exact countRun_mem S S.length d i (by omega)
      · subst hi'; exact hmem
    have hsub : (Finset.range (S.length + 1)).image (fun i : Nat => d - (i : Int)) ⊆
        S.toFinset := by
      intro x hx
      rcases Finset.mem_image.mp hx with ⟨i, hi, rfl⟩
      exact List.mem_toFinset.mpr (hall i (Finset.mem_range.mp hi))
    have hcard : ((Finset.range (S.length + 1)).image (fun i : Nat => d - (i : Int))).card =
        S.length + 1 := by
      rw [Finset.card_image_of_injOn, Finset.card_range]
      intro i _ j _ hij
      simp only at hij
      omega
    have hle := Finset.card_le_card hsub
    rw [hcard, List.toFinset_card_of_nodup hnd] at hle
    omega

/-! Helper lemmas about the per-badge loop. -/

lemma blockTypeCompletion_of_no_type (c : BadgeCriteria) (je : Option ExperimentRun)
    (hET : c.experiment_type = none) : blockTypeCompletion c je = false := by
  cases je <;> simp [blockTypeCompletion, truthyStr, hET]

lemma shouldAward_of_no_type (c : BadgeCriteria) (crs rs : List ExperimentRun) (xp : Int)
    (je je' : Option ExperimentRun) (hET : c.experiment_type = none) :
    shouldAward c crs rs xp je = shouldAward c crs rs xp je' := by
  unfold shouldAward
  rw [blockTypeCompletion_of_no_type c je hET, blockTypeCompletion_of_no_type c je' hET]

lemma shouldAward_of_pure_mastery (c : BadgeCriteria) (crs rs : List ExperimentRun)
    (xp : Int) (je : Option ExperimentRun)
    (hEC : c.experiments_completed = none) (hET : c.experiment_type = none)
    (hAT : c.accuracy_threshold = none) (hXP : c.xp_threshold = none) :
    shouldAward c crs rs xp je = blockMastery c crs rs := by
  unfold shouldAward
  rw [blockTypeCompletion_of_no_type c je hET]
  simp [blockCount, blockAccuracy, blockXP, hEC, hAT, hXP]

lemma blockMastery_of_no_subject_runs (c : BadgeCriteria) (crs rs : List ExperimentRun)
    (s : List Char) (hs : c.subject = some s)
    (hfil : rs.filter (fun r => subjMatchQ r s) = []) :
    blockMastery c crs rs = false := by
  unfold blockMastery
  rw [hs]
  split
  · simp [Option.getD, hfil]
  · rfl

lemma awardLoop_filter_earned (earned : List String) (crs rs : List ExperimentRun)
    (xp : Int) (je : Option ExperimentRun) (ins : String → Bool) :
    ∀ bs : List Badge,
      awardLoop earned crs rs xp je ins bs =
      awardLoop earned crs rs xp je ins (bs.filter (fun b => !decide (b.id ∈ earned))) := by
  intro bs
  induction bs with
  | nil => rfl
  | cons b rest ih =>
    by_cases hb : b.id ∈ earned
    · simp [awardLoop, List.filter_cons, hb, ih]
    · simp [awardLoop, List.filter_cons, hb, ih]

lemma awardLoop_eq_filter_map (earned : List String) (crs rs : List ExperimentRun)
    (xp : Int) (je : Option ExperimentRun) (ins : String → Bool) :
    ∀ bs : List Badge,
      awardLoop earned crs rs xp je ins bs =
      ((bs.filter (fun b => !decide (b.id ∈ earned) && shouldAward b.criteria crs rs xp je)).filter
        (fun b => ins b.id)).map Badge.name := by
  intro bs
  induction bs with
  | nil => rfl
  | cons b rest ih =>
    by_cases hb : b.id ∈ earned
    · simp [awardLoop, List.filter_cons, hb, ih]
    · by_cases hsa : shouldAward b.criteria crs rs xp je = true
      · by_cases hins : ins b.id = true
        · simp [awardLoop, List.filter_cons, hb, hsa, hins, ih]
        · simp [awardLoop, List.filter_cons, hb, hsa, hins, ih]
      · simp [awardLoop, List.filter_cons, hb, hsa, ih]

lemma awardLoop_nil_of_none_eligible (earned : List String) (crs rs : List ExperimentRun)
    (xp : Int) (je : Option ExperimentRun) (ins : String → Bool) :
    ∀ bs : List Badge,
      (∀ b ∈ bs, b.id ∉ earned → shouldAward b.criteria crs rs xp je = false) →
      awardLoop earned crs rs xp je ins bs = [] := by
  intro bs
  induction bs with
  | nil => intro _; rfl
  | cons b rest ih =>
    intro h
    unfold awardLoop
    have htail := ih (fun x hx => h x (List.mem_cons_of_mem b hx))
    by_cases hb : b.id ∈ earned
    · rw [if_pos hb]; exact htail
    · rw [if_neg hb, if_neg]
      · exact htail
      · rw [h b (List.mem_cons_self b rest) hb]; simp

lemma awardLoop_je_irrelevant (earned : List String) (crs rs : List ExperimentRun)
    (xp : Int) (je je' : Option ExperimentRun) (ins : String → Bool) :
    ∀ bs : List Badge,
      (∀ b ∈ bs, b.criteria.experiment_type = none) →
      awardLoop earned crs rs xp je ins bs = awardLoop earned crs rs xp je' ins bs := by
  intro bs
  induction bs with
  | nil => intro _; rfl
  | cons b rest ih =>
    intro h
    unfold awardLoop
    rw [shouldAward_of_no_type b.criteria crs rs xp je je' (h b (List.mem_cons_self b rest)),
      ih (fun x hx => h x (List.mem_cons_of_mem b hx))]

/-! Concrete fixtures used by witnesses and counterexamples. -/

/-- The criterion string with an apostrophe from the spec example. -/
def ohmTypeFix : List Char := "ohm".data ++ [apos] ++ "s law".data

/-- Attempt name with different casing, no apostrophe, extra words. -/
def ohmNameFix1 : List Char := "Ohms Law Laboratory".data

/-- Attempt name in capitals with an apostrophe and irregular spacing. -/
def ohmNameFix2 : List Char := "OHM".data ++ [apos] ++ "S   LAW".data

/-- Badge whose criteria carry both a count field and an accuracy field. -/
def comboCritFix : BadgeCriteria :=
  { experiments_completed := some 1, accuracy_threshold := some 90 }

/-- One completed run with a mediocre score. -/
def runFix50 : ExperimentRun :=
  { id := "r1", experiment_id := "e1", status := "completed", score := some 50,
    accuracy := some 50, experiments := some ⟨"Osmosis".data, "Biology".data⟩ }

/-- Badge with a type-completion criterion, awarded on a matching just-completed run. -/
def titrBadgeFix : Badge :=
  { id := "b1", name := "Titration Novice",
    criteria := { experiment_type := some "titration".data, completed := some true } }

/-- A completed titration run, used as the triggering attempt. -/
def titrRunFix : ExperimentRun :=
  { id := "r2", experiment_id := "e2", status := "completed", score := some 80,
    accuracy := some 80, experiments := some ⟨"Titration Experiment".data, "Chemistry".data⟩ }

/-- Badge gated only by an XP threshold. -/
def xpBadgeFix : Badge :=
  { id := "bx", name := "XP Collector", criteria := { xp_threshold := some 50 } }

/-- Subject-mastery criteria: all Biology attempts completed at 90 or better. -/
def bioCritFix : BadgeCriteria :=
  { subject := some "Biology".data, min_accuracy := some 90 }

/-- A Biology run with the given status and score. -/
def bioRunFix (i : String) (st : String) (sc : Option Int) : ExperimentRun :=
  { id := i, experiment_id := i, status := st, score := sc, accuracy := sc,
    experiments := some ⟨"Osmosis".data, "Biology".data⟩ }

/-- Three of four Biology attempts completed, each at score 100. -/
def bioRuns3of4 : List ExperimentRun :=
  [bioRunFix "r1" "completed" (some 100), bioRunFix "r2" "completed" (some 100),
   bioRunFix "r3" "completed" (some 100), bioRunFix "r4" "in_progress" none]

/-- All four Biology attempts completed, the fourth at score 95. -/
def bioRuns4of4 : List ExperimentRun :=
  [bioRunFix "r1" "completed" (some 100), bioRunFix "r2" "completed" (some 100),
   bioRunFix "r3" "completed" (some 100), bioRunFix "r4" "completed" (some 95)]

/-- An attempt completed on the given day, for the streak fixtures. -/
def dayFix (d : Int) : AttemptRec := ⟨"completed", some d⟩

/-- C1: criterion blocks are combined by OR inside the per-badge loop:
`shouldAward` is the disjunction of the five blocks in source order, and for
a definition carrying both `experiments_completed` and `accuracy_threshold`,
satisfying either block alone suffices to award. -/
theorem C1_or_combination :
    (∀ (c : BadgeCriteria) (crs rs : List ExperimentRun) (xp : Int)
        (je : Option ExperimentRun),
      shouldAward c crs rs xp je =
        (blockCount c crs || blockTypeCompletion c je || blockAccuracy c crs ||
          blockXP c xp || blockMastery c crs rs)) ∧
    (∀ (c : BadgeCriteria) (crs rs : List ExperimentRun) (xp : Int)
        (je : Option ExperimentRun),
      c.experiments_completed.isSome = true → c.accuracy_threshold.isSome = true →
      (blockCount c crs = true → shouldAward c crs rs xp je = true) ∧
      (blockAccuracy c crs = true → shouldAward c crs rs xp je = true)) := by
  refine ⟨fun c crs rs xp je => rfl, fun c crs rs xp je _ _ => ⟨fun h => ?_, fun h => ?_⟩⟩
  · simp [shouldAward, h]
  · simp [shouldAward, h]

/-- Witness for C1: a badge asking for one completed run or accuracy 90 is
awarded on a single completed run at score 50: the count block alone holds
(the accuracy block fails), yet the badge is awarded. -/
theorem C1_or_combination_witness :
    (comboCritFix.experiments_completed.isSome = true ∧
     comboCritFix.accuracy_threshold.isSome = true ∧
     blockCount comboCritFix [runFix50] = true ∧
     blockAccuracy comboCritFix [runFix50] = false) ∧
    shouldAward comboCritFix [runFix50] [runFix50] 0 none = true :=
  ⟨by decide,
   (C1_or_combination.2 comboCritFix [runFix50] [runFix50] 0 none rfl rfl).1 (by decide)⟩

/-- C3: the level computed from an XP total is floor division by 500 plus
one, it agrees with the real floor of xp/500, and it takes the spec values
at the boundaries. -/
theorem C3_level_formula :
    (∀ xp : Nat, computeLevel xp = ⌊(xp : ℚ) / 500⌋₊ + 1) ∧
    computeLevel 0 = 1 ∧ computeLevel 499 = 1 ∧ computeLevel 500 = 2 ∧
    computeLevel 999 = 2 ∧ computeLevel 1000 = 3 := by
  refine ⟨fun xp => ?_, rfl, rfl, rfl, rfl, rfl⟩
  rw [computeLevel, show ((500 : ℚ)) = ((500 : Nat) : ℚ) by norm_num,
    Nat.floor_div_eq_div]

/-- C4: the level computation is monotone in the XP total. -/
theorem C4_level_monotone :
    ∀ xp1 xp2 : Nat, xp1 ≤ xp2 → computeLevel xp1 ≤ computeLevel xp2 := by
  intro a b h
  exact Nat.add_le_add_right (Nat.div_le_div_right h) 1

/-- Witness for C4 at a concrete pair of XP totals. -/
theorem C4_level_monotone_witness :
    120 ≤ 1300 ∧ computeLevel 120 ≤ computeLevel 1300 :=
  ⟨by decide, C4_level_monotone 120 1300 (by decide)⟩

/-- C7: type matching normalizes both the criterion string and the attempt
name with the same normalizer and then tests substring containment, and the
criterion with an apostrophe matches both irregular attempt names of the
spec example. -/
theorem C7_name_normalization :
    (∀ t n : List Char,
      matchesType t n = true ↔
        normalizeExperimentName t <:+: normalizeExperimentName n) ∧
    matchesType ohmTypeFix ohmNameFix1 = true ∧
    matchesType ohmTypeFix ohmNameFix2 = true := by
  refine ⟨fun t n => ?_, by decide, by decide⟩
  simp [matchesType]

/-- C9 counterexample: the awarded set does depend on the optional
justCompleted argument: the type-completion block reads it.  With the same
catalog, earned set, attempt history and XP, passing a just-completed
titration run awards the titration badge, while passing nothing awards
nothing. -/
theorem C9_counterexample :
    checkAndAwardBadges (.ok [titrBadgeFix]) (.ok []) (.ok []) 0 (some titrRunFix)
        (fun _ => true) = ["Titration Novice"] ∧
    checkAndAwardBadges (.ok [titrBadgeFix]) (.ok []) (.ok []) 0 none
        (fun _ => true) = [] ∧
    checkAndAwardBadges (.ok [titrBadgeFix]) (.ok []) (.ok []) 0 (some titrRunFix)
        (fun _ => true) ≠
      checkAndAwardBadges (.ok [titrBadgeFix]) (.ok []) (.ok []) 0 none
        (fun _ => true) := by
  refine ⟨by decide, by decide, by decide⟩

/-- C9 amended: the awarded set is independent of justCompleted whenever no
definition in the catalog carries an experiment_type criterion; when one
does, the type-completion block reads justCompleted and can change the
outcome. -/
theorem C9_amended :
    ∀ (bs : List Badge) (ub : List String) (rs : List ExperimentRun) (xp : Int)
      (je je' : Option ExperimentRun) (ins : String → Bool),
      (∀ b ∈ bs, b.criteria.experiment_type = none) →
      checkAndAwardBadges (.ok bs) (.ok ub) (.ok rs) xp je ins =
        checkAndAwardBadges (.ok bs) (.ok ub) (.ok rs) xp je' ins := by
  intro bs ub rs xp je je' ins h
  unfold checkAndAwardBadges
  exact awardLoop_je_irrelevant ub _ rs xp je je' ins bs h

/-- Witness for C9 amended: with a catalog holding only the XP badge, the
result is the same with and without a triggering run. -/
theorem C9_amended_witness :
    (∀ b ∈ [xpBadgeFix], b.criteria.experiment_type = none) ∧
    checkAndAwardBadges (.ok [xpBadgeFix]) (.ok []) (.ok []) 100 (some titrRunFix)
        (fun _ => true) =
      checkAndAwardBadges (.ok [xpBadgeFix]) (.ok []) (.ok []) 100 none
        (fun _ => true) :=
  ⟨by decide,
   C9_amended [xpBadgeFix] [] [] 100 (some titrRunFix) none (fun _ => true) (by decide)⟩

/-- C10: the subject-mastery block is never satisfied by a user with zero
attempts for the subject: the empty-subject case is excluded by the
positive-count requirement, and a badge whose criteria consist only of
subject and min_accuracy is then never awarded. -/
theorem C10_mastery_nonvacuous :
    (∀ (c : BadgeCriteria) (crs rs : List ExperimentRun) (s : List Char),
      c.subject = some s →
      rs.filter (fun r => subjMatchQ r s) = [] →
      blockMastery c crs rs = false) ∧
    (∀ (c : BadgeCriteria) (s : List Char) (m : Int) (rs : List ExperimentRun)
        (xp : Int) (je : Option ExperimentRun),
      c.subject = some s → c.min_accuracy = some m →
      c.experiments_completed = none → c.experiment_type = none →
      c.accuracy_threshold = none → c.xp_threshold = none →
      rs.filter (fun r => subjMatchQ r s) = [] →
      shouldAward c (rs.filter isCompletedRun) rs xp je = false) := by
  refine ⟨fun c crs rs s hs hfil => blockMastery_of_no_subject_runs c crs rs s hs hfil,
    fun c s m rs xp je hs _ hEC hET hAT hXP hfil => ?_⟩
  rw [shouldAward_of_pure_mastery c _ rs xp je hEC hET hAT hXP]
  exact blockMastery_of_no_subject_runs c _ rs s hs hfil

/-- Witness for C10: the Biology mastery badge is not awarded to a user
whose history holds a single Chemistry run and no Biology attempt. -/
theorem C10_mastery_nonvacuous_witness :
    (bioCritFix.subject = some "Biology".data ∧
     bioCritFix.min_accuracy = some 90 ∧
     [titrRunFix].filter (fun r => subjMatchQ r "Biology".data) = []) ∧
    shouldAward bioCritFix ([titrRunFix].filter isCompletedRun) [titrRunFix] 0 none = false :=
  ⟨by decide,
   C10_mastery_nonvacuous.2 bioCritFix "Biology".data 90 [titrRunFix] 0 none
     rfl rfl rfl rfl rfl rfl (by decide)⟩

/-- C2: badges in the already-earned set are skipped entirely (removing them
from the catalog does not change the result), and a second evaluation whose
earned set contains the previously earned ids together with every id the
first succeeding evaluation awarded returns nothing. -/
theorem C2_idempotent_awarding :
    (∀ (bs : List Badge) (ub : List String) (rs : List ExperimentRun) (xp : Int)
        (je : Option ExperimentRun) (ins : String → Bool),
      checkAndAwardBadges (.ok bs) (.ok ub) (.ok rs) xp je ins =
        checkAndAwardBadges (.ok (bs.filter (fun b => !decide (b.id ∈ ub))))
          (.ok ub) (.ok rs) xp je ins) ∧
    (∀ (bs : List Badge) (ub ub₂ : List String) (rs : List ExperimentRun) (xp : Int)
        (je : Option ExperimentRun) (ins : String → Bool),
      (∀ s ∈ ub, s ∈ ub₂) →
      (∀ b ∈ bs, b.id ∉ ub →
        shouldAward b.criteria (rs.filter isCompletedRun) rs xp je = true → b.id ∈ ub₂) →
      checkAndAwardBadges (.ok bs) (.ok ub₂) (.ok rs) xp je ins = []) := by
  constructor
  · intro bs ub rs xp je ins
    unfold checkAndAwardBadges
    exact awardLoop_filter_earned ub _ rs xp je ins bs
  · intro bs ub ub₂ rs xp je ins h1 h2
    unfold checkAndAwardBadges
    apply awardLoop_nil_of_none_eligible
    intro b hb hbub₂
    rcases Bool.eq_false_or_eq_true (shouldAward b.criteria (rs.filter isCompletedRun) rs xp je)
      with h | h
    · by_cases hub : b.id ∈ ub
      · exact absurd (h1 _ hub) hbub₂
      · exact absurd (h2 b hb hub h) hbub₂
    · exact h

/-- Witness for C2: the XP badge is awarded once; a second run whose earned
set holds its id awards nothing. -/
theorem C2_idempotent_awarding_witness :
    ((∀ s ∈ ([] : List String), s ∈ ["bx"]) ∧
     (∀ b ∈ [xpBadgeFix], b.id ∉ ([] : List String) →
       shouldAward b.criteria (([] : List ExperimentRun).filter isCompletedRun) [] 100 none = true →
       b.id ∈ ["bx"])) ∧
    checkAndAwardBadges (.ok [xpBadgeFix]) (.ok ["bx"]) (.ok []) 100 none
      (fun _ => true) = [] :=
  ⟨⟨by decide, by decide⟩,
   C2_idempotent_awarding.2 [xpBadgeFix] [] ["bx"] [] 100 none (fun _ => true)
     (by decide) (by decide)⟩

/-- C8: a failure of any of the three store fetches aborts the evaluation
with an empty result, while insert outcomes only filter the eligible badges:
the result is the eligible list restricted to the badges whose insert
succeeded, so one failed insert skips that badge and the loop continues. -/
theorem C8_failure_semantics :
    (∀ (e : Unit) (ub : Except Unit (List String)) (rs : Except Unit (List ExperimentRun))
        (xp : Int) (je : Option ExperimentRun) (ins : String → Bool),
      checkAndAwardBadges (.error e) ub rs xp je ins = []) ∧
    (∀ (e : Unit) (bs : List Badge) (rs : Except Unit (List ExperimentRun))
        (xp : Int) (je : Option ExperimentRun) (ins : String → Bool),
      checkAndAwardBadges (.ok bs) (.error e) rs xp je ins = []) ∧
    (∀ (e : Unit) (bs : List Badge) (ub : List String)
        (xp : Int) (je : Option ExperimentRun) (ins : String → Bool),
      checkAndAwardBadges (.ok bs) (.ok ub) (.error e) xp je ins = []) ∧
    (∀ (bs : List Badge) (ub : List String) (rs : List ExperimentRun)
        (xp : Int) (je : Option ExperimentRun) (ins : String → Bool),
      checkAndAwardBadges (.ok bs) (.ok ub) (.ok rs) xp je ins =
        ((bs.filter (fun b => !decide (b.id ∈ ub) &&
            shouldAward b.criteria (rs.filter isCompletedRun) rs xp je)).filter
          (fun b => ins b.id)).map Badge.name) := by
  refine ⟨fun e ub rs xp je ins => rfl, fun e bs rs xp je ins => rfl,
    fun e bs ub xp je ins => rfl, fun bs ub rs xp je ins => ?_⟩
  unfold checkAndAwardBadges
  exact awardLoop_eq_filter_map ub _ rs xp je ins bs

/-- C6: a badge whose criteria consist of subject and min_accuracy is
awarded only when the completed attempts for that subject are all the
attempts for that subject and each completed score reaches min_accuracy;
the user with three of four Biology attempts completed at 100 does not
satisfy it, and completing the fourth at 95 does. -/
theorem C6_subject_mastery :
    (∀ (c : BadgeCriteria) (s : List Char) (m : Int) (rs : List ExperimentRun)
        (xp : Int) (je : Option ExperimentRun),
      c.subject = some s → c.min_accuracy = some m →
      c.experiments_completed = none → c.experiment_type = none →
      c.accuracy_threshold = none → c.xp_threshold = none →
      shouldAward c (rs.filter isCompletedRun) rs xp je = true →
      ((rs.filter isCompletedRun).filter (fun r => subjMatchQ r s)).length =
          (rs.filter (fun r => subjMatchQ r s)).length ∧
        ∀ r ∈ (rs.filter isCompletedRun).filter (fun r => subjMatchQ r s),
          scoreOr0 r ≥ m) ∧
    shouldAward bioCritFix (bioRuns3of4.filter isCompletedRun) bioRuns3of4 0 none = false ∧
    shouldAward bioCritFix (bioRuns4of4.filter isCompletedRun) bioRuns4of4 0 none = true := by
  refine ⟨fun c s m rs xp je hs hm hEC hET hAT hXP h => ?_, by decide, by decide⟩
  rw [shouldAward_of_pure_mastery c _ rs xp je hEC hET hAT hXP] at h
  unfold blockMastery at h
  rw [hs, hm] at h
  by_cases hse : s.isEmpty
  · simp [truthyStr, hse] at h
  · simp only [truthyStr, hse, Option.isSome_some, Bool.not_false, Bool.and_self,
      if_true, Option.getD_some, Bool.and_eq_true, decide_eq_true_eq,
      List.all_eq_true] at h
    exact ⟨h.1.2, fun r hr => by simpa using h.2 r hr⟩

/-- Witness for C6: the completed Biology history satisfying the mastery
badge indeed has its completed-for-subject count equal to its
total-for-subject count. -/
theorem C6_subject_mastery_witness :
    shouldAward bioCritFix (bioRuns4of4.filter isCompletedRun) bioRuns4of4 0 none = true ∧
    ((bioRuns4of4.filter isCompletedRun).filter
        (fun r => subjMatchQ r "Biology".data)).length =
      (bioRuns4of4.filter (fun r => subjMatchQ r "Biology".data)).length :=
  ⟨by decide,
   (C6_subject_mastery.1 bioCritFix "Biology".data 90 bioRuns4of4 0 none
     rfl rfl rfl rfl rfl rfl (by decide)).1⟩

/-- C5: the streak is 0 when neither today nor yesterday has a completion;
anchored at today (or at yesterday when today is absent) it counts exactly
the maximal run of consecutive present days walking backward: every day
within the returned count is present and the next day back is absent.  The
four concrete spec scenarios evaluate as stated. -/
theorem C5_streak_characterization :
    (∀ (es : List AttemptRec) (today : Int),
      today ∉ completedDatesOf es → (today - 1) ∉ completedDatesOf es →
      calculateStreak es today = 0) ∧
    (∀ (es : List AttemptRec) (today : Int),
      today ∈ completedDatesOf es →
      (∀ i : Nat, i < calculateStreak es today →
        (today - (i : Int)) ∈ completedDatesOf es) ∧
      (today - (calculateStreak es today : Int)) ∉ completedDatesOf es) ∧
    (∀ (es : List AttemptRec) (today : Int),
      today ∉ completedDatesOf es → (today - 1) ∈ completedDatesOf es →
      (∀ i : Nat, i < calculateStreak es today →
        (today - 1 - (i : Int)) ∈ completedDatesOf es) ∧
      (today - 1 - (calculateStreak es today : Int)) ∉ completedDatesOf es) ∧
    calculateStreak [dayFix (-3), dayFix (-2), dayFix (-1), dayFix 0] 0 = 4 ∧
    calculateStreak [dayFix (-3), dayFix (-2), dayFix 0] 0 = 1 ∧
    calculateStreak [dayFix (-1)] 0 = 1 ∧
    calculateStreak [dayFix (-2)] 0 = 0 := by
  refine ⟨fun es today h1 h2 => ?_, fun es today h => ?_, fun es today h1 h2 => ?_,
    by decide, by decide, by decide, by decide⟩
  · simp [calculateStreak, h1, h2]
  · have hnn : completedDatesOf es ≠ [] := List.ne_nil_of_mem h
    have hcalc : calculateStreak es today =
        countRun (completedDatesOf es) today (completedDatesOf es).length := by
      simp [calculateStreak, h, hnn]
    rw [hcalc]
    exact ⟨fun i hi => countRun_mem _ _ today i hi,
      countRun_full_stop _ (List.nodup_dedup _) today⟩
  · have hnn : completedDatesOf es ≠ [] := List.ne_nil_of_mem h2
    have hcalc : calculateStreak es today =
        countRun (completedDatesOf es) (today - 1) (completedDatesOf es).length := by
      simp [calculateStreak, h1, h2, hnn]
    rw [hcalc]
    exact ⟨fun i hi => countRun_mem _ _ (today - 1) i hi,
      countRun_full_stop _ (List.nodup_dedup _) (today - 1)⟩

/-- Witness for C5: a single completion today anchors the walk, and the day
before the returned streak is absent from the date set. -/
theorem C5_streak_characterization_witness :
    (0 : Int) ∈ completedDatesOf [dayFix 0] ∧
    ((0 : Int) - (calculateStreak [dayFix 0] 0 : Int)) ∉ completedDatesOf [dayFix 0] :=
  ⟨by decide, (C5_streak_characterization.2.1 [dayFix 0] 0 (by decide)).2⟩

end VLab
